import Mathlib

/-!
Verification of the PxlsBot audit-log extension and connection error handler.

The development shallowly embeds the two source files:

* `src/extensions/auditlog.ts` — the audit-log write path (`insertAuditLog`), the
  audit-log command's read path (`execute`, with its list mode, its pagination
  loop with a fixed 2048-character capacity, and its detail mode), and the
  command-id lookup against the command registry;
* `src/events/error.ts` — the WebSocket error handler that arms a reconnect
  timer on `ENOTFOUND` errors and only logs every other error.

Pure functions of the source become Lean functions; the database, the Discord
user cache, and the timer queue become explicit parameters or state.  The
JavaScript builtins used by the source (`String.prototype.split(' ')`,
`String.prototype.trim`, `Number`, `parseInt`) are embedded as executable Lean
functions over `List Char`.
-/

/-! ## Pagination loop (auditlog.ts lines 83–93)

The loop keeps `messageBuffer : [string[]]` (initially `[[]]`) and a running
counter `buffer`.  We split `messageBuffer` into the completed pages `done` and
the page under construction `cur`, so that `messageBuffer = done ++ [cur]`
throughout. -/

structure PagState where
  done : List (List String)
  cur : List String
  buffer : Nat
deriving DecidableEq

/-- Models one iteration of the loop body: if `buffer + formattedStr.length > 2048`
then `messageBuffer.push([]); buffer = 0;`, and in every case
`messageBuffer[last].push(formattedStr + '\n'); buffer += formattedStr.length;`. -/
def pagStep (s : PagState) (b : String) : PagState :=
  let s1 := if s.buffer + b.length > 2048 then
    { done := s.done ++ [s.cur], cur := [], buffer := 0 }
  else s
  { done := s1.done, cur := s1.cur ++ [b ++ "\n"], buffer := s1.buffer + b.length }

/-- Models the whole pagination loop: fold the loop body over the formatted
blocks starting from `messageBuffer = [[]]`, `buffer = 0`, and read back the
final `messageBuffer = done ++ [cur]`. -/
def paginate (blocks : List String) : List (List String) :=
  let s := blocks.foldl pagStep ⟨[], [], 0⟩
  s.done ++ [s.cur]

/-- Rendered length of a page: the total number of characters of the strings
pushed onto it (each pushed string is a block with its appended newline). -/
def renderedLen (page : List String) : Nat :=
  (page.map String.length).sum

/-- Invariant maintained by the loop: every completed page is within capacity
counting blocks without their appended separators (`renderedLen p ≤ 2048 +
p.length`) unless it holds a single oversized block; the counter equals the
current page's rendered length minus its separators. -/
def GoodState (s : PagState) : Prop :=
  (∀ p ∈ s.done, renderedLen p ≤ 2048 + p.length ∨ p.length = 1) ∧
  renderedLen s.cur = s.buffer + s.cur.length ∧
  (s.buffer ≤ 2048 ∨ s.cur.length = 1)

/-- Concrete block of 1024 characters, used to exhibit a page whose rendered
content exceeds the capacity while holding two blocks. -/
def blk1024 : String := String.mk (List.replicate 1024 'a')

/-- Concrete block of 2049 characters, longer than the capacity. -/
def blk2049 : String := String.mk (List.replicate 2049 'a')

/-! ## JavaScript builtins used by `execute` -/

/-- Models `String.prototype.split(sep)` for a single-character separator, as in
`message.content.split(' ')`: consecutive separators yield empty pieces and the
result is never empty. -/
def splitChar (sep : Char) : List Char → List (List Char)
  | [] => [[]]
  | c :: cs =>
    let r := splitChar sep cs
    if c = sep then [] :: r
    else
      match r with
      | [] => [[c]]
      | g :: gs => (c :: g) :: gs

/-- Models `content.split(' ')` on a `String`. -/
def jsSplitSpace (s : String) : List String :=
  (splitChar ' ' s.data).map String.mk

/-- Models `String.prototype.trim` (also the whitespace stripping performed by
`Number(string)`): drop leading and trailing whitespace. -/
def jsTrim (s : String) : String :=
  String.mk (((s.data.dropWhile Char.isWhitespace).reverse.dropWhile Char.isWhitespace).reverse)

/-- Hexadecimal digit as accepted by JavaScript numeric literals. -/
def isHexDigitJs (c : Char) : Bool :=
  c.isDigit || (decide ('a' ≤ c) && decide (c ≤ 'f')) || (decide ('A' ≤ c) && decide (c ≤ 'F'))

/-- Exponent digits of a JavaScript decimal literal: an optional sign followed
by at least one decimal digit. -/
def expDigitsOk (l : List Char) : Bool :=
  match l with
  | '+' :: r => !r.isEmpty && r.all Char.isDigit
  | '-' :: r => !r.isEmpty && r.all Char.isDigit
  | _ => !l.isEmpty && l.all Char.isDigit

/-- Optional exponent part of a JavaScript decimal literal. -/
def expPartOk (l : List Char) : Bool :=
  match l with
  | [] => true
  | c :: rest => (c == 'e' || c == 'E') && expDigitsOk rest

/-- Unsigned JavaScript decimal literal: digits with an optional fraction, or a
leading dot with digits, each with an optional exponent. -/
def decimalLiteralOk (l : List Char) : Bool :=
  let ip := l.takeWhile Char.isDigit
  let r1 := l.dropWhile Char.isDigit
  match r1 with
  | '.' :: r2 =>
    let fp := r2.takeWhile Char.isDigit
    let r3 := r2.dropWhile Char.isDigit
    (!ip.isEmpty || !fp.isEmpty) && expPartOk r3
  | _ => !ip.isEmpty && expPartOk r1

/-- Signed part of a JavaScript string numeric literal: an optional sign, then
`Infinity` or a decimal literal. -/
def signedDecimalOk (l : List Char) : Bool :=
  let l2 := match l with
    | '+' :: r => r
    | '-' :: r => r
    | _ => l
  (l2 == "Infinity".data) || decimalLiteralOk l2

/-- Recognizer for the string numeric literals accepted by `Number`: unsigned
hexadecimal, octal and binary literals, or a signed decimal / `Infinity`. -/
def recognizeNumericLiteral (l : List Char) : Bool :=
  match l with
  | '0' :: c :: rest =>
    if c == 'x' || c == 'X' then !rest.isEmpty && rest.all isHexDigitJs
    else if c == 'o' || c == 'O' then
      !rest.isEmpty && rest.all (fun d => decide ('0' ≤ d) && decide (d ≤ '7'))
    else if c == 'b' || c == 'B' then
      !rest.isEmpty && rest.all (fun d => d == '0' || d == '1')
    else signedDecimalOk ('0' :: c :: rest)
  | l => signedDecimalOk l

/-- Models the test `isNaN(Number(token))` of auditlog.ts line 105: the trimmed
empty string converts to `0` (not NaN), otherwise `Number` yields NaN exactly
when the trimmed token is not a string numeric literal. -/
def jsNumberIsNaN (s : String) : Bool :=
  let l := (jsTrim s).data
  if l.isEmpty then false
  else !(recognizeNumericLiteral l)

/-- Value of a (decimal or hexadecimal) digit character. -/
def hexDigitVal (c : Char) : Nat :=
  if c.isDigit then c.toNat - '0'.toNat
  else if 'a' ≤ c ∧ c ≤ 'f' then c.toNat - 'a'.toNat + 10
  else c.toNat - 'A'.toNat + 10

/-- Accumulate a digit string into a natural number in the given base. -/
def digitsToNat (base : Nat) (ds : List Char) : Nat :=
  ds.foldl (fun acc c => acc * base + hexDigitVal c) 0

/-- Models JavaScript `parseInt(token)` with no radix argument (auditlog.ts line
109): trim, optional sign, a `0x` prefix selects base 16, otherwise base 10,
take the longest digit prefix; `none` stands for NaN (no digit at all). -/
def jsParseInt (s : String) : Option Int :=
  let l := (jsTrim s).data
  let sign : Int := match l with
    | '-' :: _ => -1
    | _ => 1
  let l2 := match l with
    | '+' :: r => r
    | '-' :: r => r
    | _ => l
  match l2 with
  | '0' :: c :: rest =>
    if c == 'x' || c == 'X' then
      let ds := rest.takeWhile isHexDigitJs
      if ds.isEmpty then none else some (sign * (digitsToNat 16 ds : Int))
    else
      let ds := l2.takeWhile Char.isDigit
      if ds.isEmpty then none else some (sign * (digitsToNat 10 ds : Int))
  | _ =>
    let ds := l2.takeWhile Char.isDigit
    if ds.isEmpty then none else some (sign * (digitsToNat 10 ds : Int))

/-! ## Audit-log data model (auditlog.ts) -/

/-- Registered command as far as the audit-log code consults it: only its
stable `id` is read (`client.commands.find(cmd => cmd.id === ...)`). -/
structure Cmd where
  id : String
deriving DecidableEq

/-- Row of the `auditlog` table (type `DatabaseAuditLog` in the source);
`command_id` and `message` are nullable, the timestamp is abstracted to a
number. -/
structure AuditEntry where
  id : Nat
  guild_id : String
  user_id : String
  command_id : Option String
  message : Option String
  timestamp : Nat
deriving DecidableEq

/-- Environment of one `execute` invocation: the message's guild and content,
the command registry, the user cache (`client.users.fetch(...).tag`), the
timestamp formatter `logger.getDateTime`, the stored table in insertion order,
and fault injection for the two SELECT queries (a `some` makes the
corresponding `connection.query` reject). -/
structure Env where
  guildId : String
  content : String
  registry : List Cmd
  userTag : String → String
  getDateTime : Nat → String
  table : List AuditEntry
  listFault : Option String
  detailFault : Option String

/-- Observable outputs of `execute`: plain `message.channel.send(text)` calls,
the per-page list embeds (the embed's description is the page's string array),
and the detail embed with its title, author line, two fields and timestamp. -/
inductive Output where
  | text (s : String)
  | embedList (page : List String)
  | embedDetail (title author commandField messageField : String) (timestamp : Nat)
deriving DecidableEq

/-- Queries `execute` hands to the storage layer: the list-mode SELECT by guild
and the detail-mode SELECT by guild and id (`none` is a NaN id parameter). -/
inductive Query where
  | selectAll (guildId : String)
  | selectById (guildId : String) (id : Option Int)
deriving DecidableEq

def usageErrorMsg : String := "You must specify a valid audit log ID - not a number."

def noEntriesMsg : String := "This server has no audit log entries."

def listErrorMsg : String := "Could not display audit log. Details have been logged."

/-- Rendering of the id interpolated into detail-mode messages; `parseInt`'s
NaN prints as `NaN`. -/
def idStr : Option Int → String
  | some i => toString i
  | none => "NaN"

def detailErrorMsg (id : Option Int) : String :=
  "Could not search for audit log by ID `" ++ idStr id ++ "`."

def detailNotFoundMsg (id : Option Int) : String :=
  "Could not find audit log by ID `" ++ idStr id ++ "`."

/-- Models lines 72–73 / 129–130 of auditlog.ts:
`const command = client.commands.find(cmd => cmd.id === auditLog.command_id);`
`const commandID = command.id ?? auditLog.command_id;`
When `find` misses, `command` is `undefined` and reading `command.id` throws a
`TypeError`, modelled as `Except.error ()`; when it hits, `command.id` is a
string so the `??` fallback never engages. -/
def resolveCommandID (registry : List Cmd) (commandId : Option String) : Except Unit String :=
  match registry.find? (fun c => some c.id == commandId) with
  | some c => Except.ok c.id
  | none => Except.error ()

/-- JavaScript string coercion of a nullable column when spliced into a
template or concatenation: `null` prints as `"null"`. -/
def optText : Option String → String
  | some s => s
  | none => "null"

/-- Models the formatted list-mode block for one row (auditlog.ts lines 75–80):
the template literal interpolating entry id, resolved command id, formatted
timestamp, user tag and raw user id, with the surrounding `.trim()`. -/
def renderBlock (entryId : Nat) (commandID timestamp tag uid : String) : String :=
  jsTrim ("\n          __**Audit Log #" ++ toString entryId ++ ":**__ `" ++ commandID
    ++ "`\n          **Time:** " ++ timestamp ++ "\n          **User:** " ++ tag
    ++ "\n          (" ++ uid ++ ")\n        ")

/-- Models one iteration of the list-mode formatting loop (lines 70–81): fetch
the user's tag, resolve the command id (which can throw, see
`resolveCommandID`), and push the formatted block. -/
def formatEntry (env : Env) (r : AuditEntry) : Except Unit String :=
  match resolveCommandID env.registry r.command_id with
  | Except.error e => Except.error e
  | Except.ok cid =>
    Except.ok (renderBlock r.id cid (env.getDateTime r.timestamp) (env.userTag r.user_id) r.user_id)

/-- Models the whole list-mode formatting loop: blocks in row order, aborted by
the first thrown lookup. -/
def formatAll (env : Env) : List AuditEntry → Except Unit (List String)
  | [] => Except.ok []
  | r :: rs =>
    match formatEntry env r with
    | Except.error e => Except.error e
    | Except.ok b =>
      match formatAll env rs with
      | Except.error e => Except.error e
      | Except.ok bs => Except.ok (b :: bs)

/-- Block a row formats to when its command id resolves: on the success path
`find` matched `cmd.id === command_id`, so the resolved label is the stored
command id itself. -/
def pureBlock (env : Env) (r : AuditEntry) : String :=
  renderBlock r.id (r.command_id.getD "") (env.getDateTime r.timestamp)
    (env.userTag r.user_id) r.user_id

/-- Modelled from the spec: the `truncate` utility of `src/utils.ts`, which is
not among the provided sources, per §4.3 of the spec — text that fits is
returned unchanged; otherwise characters are removed from the end opposite the
requested direction and the placeholder is spliced in so the result length
equals the maximum; `fromStart = true` preserves the trailing portion. -/
def truncate (text : String) (maxLength : Nat) (placeholder : String) (fromStart : Bool) : String :=
  if text.length ≤ maxLength then text
  else if fromStart then
    String.mk (placeholder.data ++ (text.data.drop (text.length - (maxLength - placeholder.length))))
  else
    String.mk ((text.data.take (maxLength - placeholder.length)) ++ placeholder.data)

/-- Models list mode of `execute` (auditlog.ts lines 51–103): SELECT all rows of
the guild (fault-injectable), the zero-row notice, the formatting loop, the
pagination loop and one embed send per page; any throw inside the `try` is
caught and answered with the generic failure notice. -/
def executeList (env : Env) : List Output × List Query :=
  match env.listFault with
  | some _ => ([Output.text listErrorMsg], [Query.selectAll env.guildId])
  | none =>
    let rows := env.table.filter (fun r => r.guild_id == env.guildId)
    if rows.length < 1 then ([Output.text noEntriesMsg], [Query.selectAll env.guildId])
    else
      match formatAll env rows with
      | Except.error _ => ([Output.text listErrorMsg], [Query.selectAll env.guildId])
      | Except.ok arr => ((paginate arr).map Output.embedList, [Query.selectAll env.guildId])

/-- Models detail mode of `execute` (auditlog.ts lines 109–141): SELECT by guild
and `parseInt`-ed id.  A NaN id parameter makes the storage layer reject the
query (invalid integer parameter), landing in the catch branch, as does an
injected fault or a thrown command lookup; otherwise the row is rendered into
the detail embed, or the not-found notice is sent. -/
def executeDetail (env : Env) (tok : String) : List Output × List Query :=
  match env.detailFault with
  | some _ =>
    ([Output.text (detailErrorMsg (jsParseInt tok))], [Query.selectById env.guildId (jsParseInt tok)])
  | none =>
    match jsParseInt tok with
    | none => ([Output.text (detailErrorMsg none)], [Query.selectById env.guildId none])
    | some n =>
      match env.table.filter (fun r => r.guild_id == env.guildId && ((r.id : Int) == n)) with
      | [] => ([Output.text (detailNotFoundMsg (some n))], [Query.selectById env.guildId (some n)])
      | row :: _ =>
        let tag := env.userTag row.user_id
        match resolveCommandID env.registry row.command_id with
        | Except.error _ =>
          ([Output.text (detailErrorMsg (some n))], [Query.selectById env.guildId (some n)])
        | Except.ok cid =>
          ([Output.embedDetail ("Audit Log #" ++ idStr (some n))
              (tag ++ " (" ++ row.user_id ++ ")")
              ("`" ++ cid ++ "`")
              (truncate ("```\n" ++ optText row.message ++ "```") 1024 " ..." true)
              row.timestamp],
            [Query.selectById env.guildId (some n)])

/-- Models `execute` of auditlog.ts (lines 47–142): split the content on single
spaces; fewer than two tokens selects list mode; a second token failing the
`isNaN(Number(...))` test is answered with the usage error and nothing else;
otherwise detail mode runs on `parseInt` of the token. -/
def execute (env : Env) : List Output × List Query :=
  if (jsSplitSpace env.content).length < 2 then executeList env
  else if jsNumberIsNaN ((jsSplitSpace env.content).getD 1 "") then
    ([Output.text usageErrorMsg], [])
  else executeDetail env ((jsSplitSpace env.content).getD 1 "")

/-! ## Audit-log write path (auditlog.ts lines 27–45) -/

/-- Fields of the message handed to `insertAuditLog`. -/
structure MsgInfo where
  guildId : String
  authorId : String
  content : String
deriving DecidableEq

/-- Row written by the INSERT of `insertAuditLog` (id and timestamp are
defaulted by storage). -/
structure InsertedRow where
  guild_id : String
  user_id : String
  command_id : String
  message : String
deriving DecidableEq

def insertErrorLogMsg : String := "Could not insert into \"auditlog\" table."

/-- Models `connection.query(INSERT ...)`: appends the row, or rejects when a
fault is injected. -/
def insertQuery (fault : Option String) (db : List InsertedRow) (row : InsertedRow) :
    Except String (List InsertedRow) :=
  match fault with
  | some e => Except.error e
  | none => Except.ok (db ++ [row])

/-- Models `insertAuditLog` of auditlog.ts: the INSERT of (guild id, author id,
command id, content) runs inside try/catch; a storage fault is logged (the
error, then the fixed message) and the function returns normally either way. -/
def insertAuditLog (fault : Option String) (msg : MsgInfo) (commandID : String)
    (db : List InsertedRow) (logs : List String) : List InsertedRow × List String :=
  match insertQuery fault db ⟨msg.guildId, msg.authorId, commandID, msg.content⟩ with
  | Except.ok db2 => (db2, logs)
  | Except.error e => (db, logs ++ [e, insertErrorLogMsg])

/-! ## Connection error handler (src/events/error.ts) -/

/-- Process state observed by the error handler: the number of `setTimeout`
reconnect callbacks currently pending, the number of `login()` calls made by
fired timers, and the logged lines. -/
structure ErrState where
  pendingTimers : Nat
  loginAttempts : Nat
  logs : List String
deriving DecidableEq

def reconnectLogMsg : String :=
  "Lost connection to Discord, will attempt reconnect in 30 seconds..."

/-- Models `execute` of error.ts: an error named `ENOTFOUND` logs the reconnect
warning and arms one `setTimeout` whose callback will call `login()`; every
other error is only logged. -/
def errorExecute (errName : String) (s : ErrState) : ErrState :=
  if errName = "ENOTFOUND" then
    { s with logs := s.logs ++ [reconnectLogMsg], pendingTimers := s.pendingTimers + 1 }
  else
    { s with logs := s.logs ++ [errName] }

/-- Models one armed timer firing: its callback runs `login()`. -/
def timerFire (s : ErrState) : ErrState :=
  if s.pendingTimers = 0 then s
  else { s with pendingTimers := s.pendingTimers - 1, loginAttempts := s.loginAttempts + 1 }

/-- Events delivered to the process: an error-channel fault with its name, or a
pending timer firing. -/
inductive BotEvent where
  | fault (errName : String)
  | timer
deriving DecidableEq

def stepEvent (s : ErrState) : BotEvent → ErrState
  | BotEvent.fault n => errorExecute n s
  | BotEvent.timer => timerFire s

def initErrState : ErrState := ⟨0, 0, []⟩

/-- Run a sequence of events from the initial state (connected, no timer
pending, nothing logged). -/
def runEvents (evs : List BotEvent) : ErrState := evs.foldl stepEvent initErrState

/-! ## Concrete environments used by witnesses and counterexamples -/

/-- Environment whose only stored row references a command id that is no longer
registered. -/
def staleEnv : Env :=
  { guildId := "g", content := "auditlog", registry := [⟨"auditlog"⟩],
    userTag := fun _ => "tag", getDateTime := fun _ => "ts",
    table := [⟨1, "g", "u1", some "removed-cmd", some "hello", 0⟩],
    listFault := none, detailFault := none }

/-- Environment invoking the command with a non-numeric argument. -/
def usageEnv : Env :=
  { guildId := "g", content := "auditlog abc", registry := [],
    userTag := fun _ => "", getDateTime := fun _ => "",
    table := [], listFault := none, detailFault := none }

/-- Environment invoking the command with the fractional argument `12.5`. -/
def detailEnv : Env :=
  { guildId := "g", content := "auditlog 12.5", registry := [],
    userTag := fun _ => "", getDateTime := fun _ => "",
    table := [], listFault := none, detailFault := none }

/-- Environment with two stored rows in ascending-id insertion order. -/
def sortedEnv : Env :=
  { guildId := "g", content := "auditlog", registry := [⟨"auditlog"⟩],
    userTag := fun _ => "tag", getDateTime := fun _ => "ts",
    table := [⟨1, "g", "u", some "auditlog", some "m", 0⟩,
              ⟨2, "g", "u", some "auditlog", some "m", 0⟩],
    listFault := none, detailFault := none }

/-! ## Lemmas and theorems -/


/-- Length of a pushed entry: the block plus its appended newline. -/
theorem entry_length_eq (b : String) : (b ++ "\n").length = b.length + 1 := by
  rw [String.length_append]
  rfl

theorem renderedLen_singleton (s : String) : renderedLen [s] = s.length := by
  simp [renderedLen]

theorem renderedLen_append (p q : List String) :
    renderedLen (p ++ q) = renderedLen p + renderedLen q := by
  simp [renderedLen]

/-- Shape of the loop body when the capacity check fires. -/
theorem pagStep_pos (s : PagState) (b : String) (hc : s.buffer + b.length > 2048) :
    pagStep s b = ⟨s.done ++ [s.cur], [b ++ "\n"], 0 + b.length⟩ := by
  simp [pagStep, hc]

/-- Shape of the loop body when the block still fits. -/
theorem pagStep_neg (s : PagState) (b : String) (hc : ¬ s.buffer + b.length > 2048) :
    pagStep s b = ⟨s.done, s.cur ++ [b ++ "\n"], s.buffer + b.length⟩ := by
  simp [pagStep, hc]

theorem pagStep_preserves (s : PagState) (b : String) (h : GoodState s) :
    GoodState (pagStep s b) := by
  obtain ⟨hdone, hcur, hbuf⟩ := h
  by_cases hc : s.buffer + b.length > 2048
  · rw [pagStep_pos s b hc]
    refine ⟨?_, ?_, Or.inr rfl⟩
    · intro p hp
      rcases List.mem_append.mp hp with hp | hp
      · exact hdone p hp
      · rw [List.mem_singleton] at hp
        subst hp
        rcases hbuf with h2 | h2
        · exact Or.inl (by omega)
        · exact Or.inr h2
    · show renderedLen [b ++ "\n"] = 0 + b.length + ([b ++ "\n"] : List String).length
      rw [renderedLen_singleton, entry_length_eq, List.length_singleton]
      omega
  · rw [pagStep_neg s b hc]
    refine ⟨fun p hp => hdone p hp, ?_, Or.inl (show s.buffer + b.length ≤ 2048 by omega)⟩
    show renderedLen (s.cur ++ [b ++ "\n"]) = s.buffer + b.length + (s.cur ++ [b ++ "\n"]).length
    rw [renderedLen_append, renderedLen_singleton, entry_length_eq, List.length_append,
      List.length_singleton, hcur]
    omega

theorem foldl_preserves_good :
    ∀ (bs : List String) (s : PagState), GoodState s → GoodState (bs.foldl pagStep s) := by
  intro bs
  induction bs with
  | nil => intro s h; exact h
  | cons b bs ih => intro s h; exact ih _ (pagStep_preserves s b h)

/-- C1 (amended): every page produced by the pagination loop satisfies
`renderedLen p ≤ 2048 + p.length` — i.e. the total length of its blocks
excluding the appended newline separators is at most 2048, so the rendered
content exceeds the capacity by at most one character per block — unless the
page holds exactly one block (which is how a single block longer than 2048
characters ends up alone on an over-capacity page). -/
theorem paginate_page_capacity (blocks : List String) (p : List String)
    (hp : p ∈ paginate blocks) :
    renderedLen p ≤ 2048 + p.length ∨ p.length = 1 := by
  have hg : GoodState (blocks.foldl pagStep ⟨[], [], 0⟩) :=
    foldl_preserves_good blocks ⟨[], [], 0⟩ ⟨by simp, rfl, Or.inl (by decide)⟩
  obtain ⟨hdone, hcur, hbuf⟩ := hg
  rcases List.mem_append.mp hp with h | h
  · exact hdone p h
  · rw [List.mem_singleton] at h
    subst h
    rcases hbuf with h2 | h2
    · exact Or.inl (by omega)
    · exact Or.inr h2

theorem paginate_page_capacity_witness :
    renderedLen ["ab\n"] ≤ 2048 + (["ab\n"] : List String).length ∨
      (["ab\n"] : List String).length = 1 :=
  paginate_page_capacity ["ab"] ["ab\n"] (by decide)

set_option maxRecDepth 10000 in
/-- C1 counterexample: feeding two 1024-character blocks yields a single page
holding both blocks whose rendered content (each block with its appended
newline) is 2050 > 2048 characters, while neither block alone exceeds 2048 —
the loop's counter ignores the separators, so the claim as stated is false. -/
theorem paginate_capacity_claim_fails :
    (paginate [blk1024, blk1024]).length = 1 ∧
    renderedLen ((paginate [blk1024, blk1024]).getD 0 []) = 2050 ∧
    ((paginate [blk1024, blk1024]).getD 0 []).length = 2 ∧
    blk1024.length = 1024 := by
  decide

theorem paginate_foldl_flatten :
    ∀ (bs : List String) (s : PagState),
      (bs.foldl pagStep s).done.flatten ++ (bs.foldl pagStep s).cur =
        s.done.flatten ++ s.cur ++ bs.map (fun b => b ++ "\n") := by
  intro bs
  induction bs with
  | nil => intro s; simp
  | cons b bs ih =>
    intro s
    rw [List.foldl_cons, ih]
    by_cases hc : s.buffer + b.length > 2048
    · rw [pagStep_pos s b hc]
      simp [List.append_assoc]
    · rw [pagStep_neg s b hc]
      simp [List.append_assoc]

theorem paginate_flatten (blocks : List String) :
    (paginate blocks).flatten = blocks.map (fun b => b ++ "\n") := by
  show ((blocks.foldl pagStep ⟨[], [], 0⟩).done ++ [(blocks.foldl pagStep ⟨[], [], 0⟩).cur]).flatten
      = blocks.map (fun b => b ++ "\n")
  rw [List.flatten_append]
  simpa using paginate_foldl_flatten blocks ⟨[], [], 0⟩

/-- C2: concatenating the pages produced by the pagination loop, in order,
yields exactly the input blocks in order, each carrying its appended newline
separator — so ignoring the separators no block is lost, duplicated or
reordered. -/
theorem paginate_preserves_blocks (blocks : List String) :
    (paginate blocks).flatten = blocks.map (fun b => b ++ "\n") :=
  paginate_flatten blocks

theorem foldl_pages_nonempty :
    ∀ (bs : List String) (s : PagState), s.cur ≠ [] →
      ∃ t, (bs.foldl pagStep s).done = s.done ++ t ∧ (∀ p ∈ t, p ≠ []) ∧
        (bs.foldl pagStep s).cur ≠ [] := by
  intro bs
  induction bs with
  | nil => intro s h; exact ⟨[], by simp, by simp, h⟩
  | cons b bs ih =>
    intro s h
    rw [List.foldl_cons]
    by_cases hc : s.buffer + b.length > 2048
    · obtain ⟨t, h1, h2, h3⟩ := ih (pagStep s b) (by rw [pagStep_pos s b hc]; simp)
      refine ⟨s.cur :: t, ?_, ?_, h3⟩
      · rw [h1, pagStep_pos s b hc]
        simp
      · intro p hp
        rcases List.mem_cons.mp hp with hp | hp
        · exact hp ▸ h
        · exact h2 p hp
    · obtain ⟨t, h1, h2, h3⟩ := ih (pagStep s b) (by rw [pagStep_neg s b hc]; simp)
      refine ⟨t, ?_, h2, h3⟩
      rw [h1, pagStep_neg s b hc]

/-- C9: when the first block is longer than the 2048-character capacity, the
loop pushes a fresh page while the initial page is still empty, so the output
starts with an empty page (for which the send loop still emits one message) and
every later page is nonempty; when the first block fits, no page is ever empty
— so a leading oversized block is the only way an empty page arises.  The
flatten equation places the oversized first block at the start of the following
pages. -/
theorem paginate_leading_empty_page (b : String) (bs : List String) :
    (2048 < b.length → (paginate (b :: bs)).head? = some [] ∧
        ∀ p ∈ (paginate (b :: bs)).tail, p ≠ []) ∧
    (b.length ≤ 2048 → ∀ p ∈ paginate (b :: bs), p ≠ []) ∧
    (paginate (b :: bs)).flatten = (b :: bs).map (fun x => x ++ "\n") := by
  refine ⟨?_, ?_, paginate_flatten (b :: bs)⟩
  · intro hb
    have hone : pagStep ⟨[], [], 0⟩ b = ⟨[[]], [b ++ "\n"], 0 + b.length⟩ :=
      pagStep_pos ⟨[], [], 0⟩ b (by simpa using hb)
    obtain ⟨t, h1, h2, h3⟩ :=
      foldl_pages_nonempty bs ⟨[[]], [b ++ "\n"], 0 + b.length⟩ (by simp)
    have hpag : paginate (b :: bs) =
        ([[]] ++ t) ++ [(bs.foldl pagStep ⟨[[]], [b ++ "\n"], 0 + b.length⟩).cur] := by
      show ((b :: bs).foldl pagStep ⟨[], [], 0⟩).done
          ++ [((b :: bs).foldl pagStep ⟨[], [], 0⟩).cur] = _
      rw [List.foldl_cons, hone, h1]
    rw [hpag]
    constructor
    · simp
    · intro p hp
      simp only [List.cons_append, List.nil_append, List.tail_cons, List.mem_append,
        List.mem_singleton] at hp
      rcases hp with hp | hp
      · exact h2 p hp
      · exact hp ▸ h3
  · intro hb
    have hone : pagStep ⟨[], [], 0⟩ b = ⟨[], [b ++ "\n"], 0 + b.length⟩ :=
      pagStep_neg ⟨[], [], 0⟩ b (by simp; omega)
    obtain ⟨t, h1, h2, h3⟩ :=
      foldl_pages_nonempty bs ⟨[], [b ++ "\n"], 0 + b.length⟩ (by simp)
    have hpag : paginate (b :: bs) =
        ([] ++ t) ++ [(bs.foldl pagStep ⟨[], [b ++ "\n"], 0 + b.length⟩).cur] := by
      show ((b :: bs).foldl pagStep ⟨[], [], 0⟩).done
          ++ [((b :: bs).foldl pagStep ⟨[], [], 0⟩).cur] = _
      rw [List.foldl_cons, hone, h1]
    rw [hpag]
    intro p hp
    simp only [List.nil_append, List.mem_append, List.mem_singleton] at hp
    rcases hp with hp | hp
    · exact h2 p hp
    · exact hp ▸ h3

theorem blk2049_length : blk2049.length = 2049 := by
  show (List.replicate 2049 'a').length = 2049
  exact List.length_replicate 2049 'a'

theorem paginate_leading_empty_page_witness :
    (paginate (blk2049 :: ["x"])).head? = some [] :=
  ((paginate_leading_empty_page blk2049 ["x"]).1 (by rw [blk2049_length]; omega)).1

/-- C3 counterexample: two host-unreachable faults delivered before any timer
fires leave two reconnect timers pending — the handler has no pending-timer
guard, so a fault arriving while a timer is armed stacks a second timer. -/
theorem reconnect_timers_stack :
    (runEvents [BotEvent.fault "ENOTFOUND", BotEvent.fault "ENOTFOUND"]).pendingTimers = 2 := rfl

/-- C3 (amended): every ENOTFOUND fault delivered to the error handler arms an
additional reconnect timer, whether or not one is already pending: after `k`
such faults with no timer having fired, `k` timers are pending. -/
theorem reconnect_timer_per_fault (k : Nat) :
    (runEvents (List.replicate k (BotEvent.fault "ENOTFOUND"))).pendingTimers = k := by
  have key : ∀ (n : Nat) (s : ErrState),
      ((List.replicate n (BotEvent.fault "ENOTFOUND")).foldl stepEvent s).pendingTimers
        = s.pendingTimers + n := by
    intro n
    induction n with
    | zero => intro s; rfl
    | succ m ih =>
      intro s
      rw [List.replicate_succ, List.foldl_cons, ih]
      show (errorExecute "ENOTFOUND" s).pendingTimers + m = s.pendingTimers + (m + 1)
      rw [errorExecute, if_pos rfl]
      show s.pendingTimers + 1 + m = s.pendingTimers + (m + 1)
      omega
  have h := key k initErrState
  simpa [runEvents, initErrState] using h

/-- C6: a fault whose name is not ENOTFOUND is only logged: the handler leaves
the pending-timer count and the login-attempt count unchanged and appends the
error to the log. -/
theorem error_handler_other_faults (n : String) (s : ErrState) (h : n ≠ "ENOTFOUND") :
    errorExecute n s = { s with logs := s.logs ++ [n] } := by
  rw [errorExecute, if_neg h]

theorem error_handler_other_faults_witness :
    errorExecute "ECONNRESET" ⟨0, 0, []⟩ = ⟨0, 0, ["ECONNRESET"]⟩ :=
  error_handler_other_faults "ECONNRESET" ⟨0, 0, []⟩ (by decide)

/-- C5: `insertAuditLog` never raises — its result is a plain state, not a
fault.  When the storage INSERT succeeds it appends exactly one row carrying
the message's guild id, author id, the command id and the raw text, and logs
nothing; when the INSERT faults, the store is untouched, the error and the
fixed message are logged, and the function still returns normally. -/
theorem insertAuditLog_best_effort (msg : MsgInfo) (commandID : String)
    (db : List InsertedRow) (logs : List String) (e : String) :
    insertAuditLog none msg commandID db logs
      = (db ++ [⟨msg.guildId, msg.authorId, commandID, msg.content⟩], logs) ∧
    insertAuditLog (some e) msg commandID db logs
      = (db, logs ++ [e, insertErrorLogMsg]) :=
  ⟨rfl, rfl⟩

/-- C4 (code bug): when the stored command id is not the id of any registered
command, `client.commands.find(...)` yields `undefined` and reading
`command.id` throws a TypeError instead of falling back to the raw stored id;
in list mode the catch branch then sends the generic failure notice, so no
entry with a fallback label is ever rendered. -/
theorem auditlog_stale_command_faults :
    resolveCommandID [⟨"auditlog"⟩] (some "removed-cmd") = Except.error () ∧
    execute staleEnv = ([Output.text listErrorMsg], [Query.selectAll "g"]) :=
  ⟨rfl, rfl⟩

theorem string_data_append (s t : String) : (s ++ t).data = s.data ++ t.data := rfl

/-- A string that starts with the character C cannot be the usage error, which
starts with Y. -/
theorem ne_usage_of_head (s : String) (h : s.data.head? = some 'C') : s ≠ usageErrorMsg := by
  intro he
  rw [he] at h
  exact absurd h (by decide)

theorem detailErrorMsg_head (id : Option Int) : (detailErrorMsg id).data.head? = some 'C' := by
  rw [detailErrorMsg, string_data_append, string_data_append]
  rfl

theorem detailNotFoundMsg_head (id : Option Int) :
    (detailNotFoundMsg id).data.head? = some 'C' := by
  rw [detailNotFoundMsg, string_data_append, string_data_append]
  rfl

/-- Detail mode always hands the storage layer exactly the SELECT by guild id
and the `parseInt`-ed token. -/
theorem executeDetail_queries (env : Env) (tok : String) :
    (executeDetail env tok).2 = [Query.selectById env.guildId (jsParseInt tok)] := by
  rw [executeDetail]
  split
  · rfl
  · split
    · rename_i h
      rw [h]
    · rename_i n h
      rw [h]
      split
      · rfl
      · split
        · rfl
        · rfl

/-- Detail mode never emits the usage error. -/
theorem executeDetail_no_usage (env : Env) (tok : String) :
    Output.text usageErrorMsg ∉ (executeDetail env tok).1 := by
  rw [executeDetail]
  split
  · intro hm
    have hm2 : Output.text usageErrorMsg = Output.text (detailErrorMsg (jsParseInt tok)) :=
      List.mem_singleton.mp hm
    injection hm2 with h2
    exact ne_usage_of_head _ (detailErrorMsg_head _) h2.symm
  · split
    · intro hm
      have hm2 : Output.text usageErrorMsg = Output.text (detailErrorMsg none) :=
        List.mem_singleton.mp hm
      injection hm2 with h2
      exact ne_usage_of_head _ (detailErrorMsg_head _) h2.symm
    · rename_i n h
      split
      · intro hm
        have hm2 : Output.text usageErrorMsg = Output.text (detailNotFoundMsg (some n)) :=
          List.mem_singleton.mp hm
        injection hm2 with h2
        exact ne_usage_of_head _ (detailNotFoundMsg_head _) h2.symm
      · rename_i row rest hfil
        split
        · intro hm
          have hm2 : Output.text usageErrorMsg = Output.text (detailErrorMsg (some n)) :=
            List.mem_singleton.mp hm
          injection hm2 with h2
          exact ne_usage_of_head _ (detailErrorMsg_head _) h2.symm
        · rename_i cid hc
          intro hm
          have hm2 : Output.text usageErrorMsg =
              Output.embedDetail ("Audit Log #" ++ idStr (some n))
                (env.userTag row.user_id ++ " (" ++ row.user_id ++ ")")
                ("`" ++ cid ++ "`")
                (truncate ("```\n" ++ optText row.message ++ "```") 1024 " ..." true)
                row.timestamp :=
            List.mem_singleton.mp hm
          exact Output.noConfusion hm2

/-- C7: when the message carries a second token and `isNaN(Number(token))`
holds, `execute` sends exactly the usage error, hands no query to the storage
layer, and emits nothing else. -/
theorem auditlog_nonnumeric_rejected (env : Env)
    (h1 : 2 ≤ (jsSplitSpace env.content).length)
    (h2 : jsNumberIsNaN ((jsSplitSpace env.content).getD 1 "") = true) :
    execute env = ([Output.text usageErrorMsg], []) := by
  rw [execute, if_neg (by omega), if_pos h2]

theorem auditlog_nonnumeric_rejected_witness :
    execute usageEnv = ([Output.text usageErrorMsg], []) :=
  auditlog_nonnumeric_rejected usageEnv (by decide) (by decide)

/-- C10: a second token passing the `isNaN(Number(token))` test is never
answered with the usage error, and the query handed to the storage layer
carries `parseInt(token)` as the id; in particular the fractional token `12.5`
is accepted and queried as id 12. -/
theorem auditlog_detail_uses_parseInt (env : Env)
    (h1 : 2 ≤ (jsSplitSpace env.content).length)
    (h2 : jsNumberIsNaN ((jsSplitSpace env.content).getD 1 "") = false) :
    (execute env).2 = [Query.selectById env.guildId
        (jsParseInt ((jsSplitSpace env.content).getD 1 ""))] ∧
    Output.text usageErrorMsg ∉ (execute env).1 ∧
    jsNumberIsNaN "12.5" = false ∧ jsParseInt "12.5" = some 12 := by
  have he : execute env = executeDetail env ((jsSplitSpace env.content).getD 1 "") := by
    rw [execute, if_neg (by omega), if_neg (by rw [h2]; exact Bool.false_ne_true)]
  refine ⟨?_, ?_, by decide, by decide⟩
  · rw [he]
    exact executeDetail_queries env _
  · rw [he]
    exact executeDetail_no_usage env _

theorem auditlog_detail_uses_parseInt_witness :
    (execute detailEnv).2 = [Query.selectById detailEnv.guildId
        (jsParseInt ((jsSplitSpace detailEnv.content).getD 1 ""))] ∧
    Output.text usageErrorMsg ∉ (execute detailEnv).1 ∧
    jsNumberIsNaN "12.5" = false ∧ jsParseInt "12.5" = some 12 :=
  auditlog_detail_uses_parseInt detailEnv (by decide) (by decide)

/-- On the success path the resolved label is the stored command id itself,
since `find` matched on `cmd.id === command_id`. -/
theorem resolveCommandID_ok (registry : List Cmd) (cid : Option String) (c : String)
    (h : resolveCommandID registry cid = Except.ok c) : cid = some c := by
  rw [resolveCommandID] at h
  cases hf : registry.find? (fun cm => some cm.id == cid) with
  | none => rw [hf] at h; exact Except.noConfusion h
  | some cm =>
    rw [hf] at h
    injection h with h2
    have hp := List.find?_some hf
    rw [← h2]
    exact (by simpa using hp : some cm.id = cid).symm

theorem formatEntry_ok (env : Env) (r : AuditEntry) (b : String)
    (h : formatEntry env r = Except.ok b) : b = pureBlock env r := by
  rw [formatEntry] at h
  cases hr : resolveCommandID env.registry r.command_id with
  | error e => rw [hr] at h; exact Except.noConfusion h
  | ok cid =>
    rw [hr] at h
    have h2 := Except.ok.inj h
    have hcid := resolveCommandID_ok env.registry r.command_id cid hr
    rw [pureBlock, hcid, ← h2]
    rfl

theorem formatAll_ok (env : Env) :
    ∀ (rows : List AuditEntry) (arr : List String),
      formatAll env rows = Except.ok arr → arr = rows.map (pureBlock env) := by
  intro rows
  induction rows with
  | nil =>
    intro arr h
    injection h with h2
    rw [← h2]
    rfl
  | cons r rs ih =>
    intro arr h
    rw [formatAll] at h
    cases he : formatEntry env r with
    | error e => rw [he] at h; exact Except.noConfusion h
    | ok b =>
      rw [he] at h
      cases hr : formatAll env rs with
      | error e => rw [hr] at h; exact Except.noConfusion h
      | ok bs =>
        rw [hr] at h
        injection h with h2
        rw [← h2, List.map_cons, formatEntry_ok env r b he, ih bs hr]

/-- C8: with the table in insertion order of ascending ids (the storage
engine's contract the code relies on), the rows selected for the guild keep
ascending ids, the formatting loop renders them into blocks in exactly that
row order, and the pagination loop preserves the block sequence across the
emitted pages. -/
theorem auditlog_list_insertion_order (env : Env)
    (hsorted : env.table.Pairwise (fun a b => a.id < b.id)) :
    ((env.table.filter fun r => r.guild_id == env.guildId).map AuditEntry.id).Pairwise (· < ·) ∧
    ∀ arr, formatAll env (env.table.filter fun r => r.guild_id == env.guildId)
        = Except.ok arr →
      arr = (env.table.filter fun r => r.guild_id == env.guildId).map (pureBlock env) ∧
      (paginate arr).flatten = arr.map (fun b => b ++ "\n") := by
  constructor
  · exact List.pairwise_map.mpr
      (List.Pairwise.sublist (List.filter_sublist env.table) hsorted)
  · intro arr h
    exact ⟨formatAll_ok env _ arr h, paginate_flatten arr⟩

theorem auditlog_list_insertion_order_witness :
    ((sortedEnv.table.filter fun r => r.guild_id == sortedEnv.guildId).map
        AuditEntry.id).Pairwise (· < ·) :=
  (auditlog_list_insertion_order sortedEnv (by decide)).1
